import Mathlib

/-!
Verification of the usb_relay_rtu protocol engine and arbitration daemon.

The definitions below are shallow embeddings of the Python source:
bytes are modelled as `List Nat` (each element intended in 0..255),
fallible code returns `Except`, and the daemon's lock/threading
behaviour is modelled as an explicit labelled transition system.
-/

namespace UsbRelay

/-- Byte table `ModbusCRC16.CRC_LO_TABLE` from src/modbus_rtu.py. -/
def CRC_LO_TABLE : List Nat := [
  0x00, 0xC0, 0xC1, 0x01, 0xC3, 0x03, 0x02, 0xC2, 0xC6, 0x06,
  0x07, 0xC7, 0x05, 0xC5, 0xC4, 0x04, 0xCC, 0x0C, 0x0D, 0xCD,
  0x0F, 0xCF, 0xCE, 0x0E, 0x0A, 0xCA, 0xCB, 0x0B, 0xC9, 0x09,
  0x08, 0xC8, 0xD8, 0x18, 0x19, 0xD9, 0x1B, 0xDB, 0xDA, 0x1A,
  0x1E, 0xDE, 0xDF, 0x1F, 0xDD, 0x1D, 0x1C, 0xDC, 0x14, 0xD4,
  0xD5, 0x15, 0xD7, 0x17, 0x16, 0xD6, 0xD2, 0x12, 0x13, 0xD3,
  0x11, 0xD1, 0xD0, 0x10, 0xF0, 0x30, 0x31, 0xF1, 0x33, 0xF3,
  0xF2, 0x32, 0x36, 0xF6, 0xF7, 0x37, 0xF5, 0x35, 0x34, 0xF4,
  0x3C, 0xFC, 0xFD, 0x3D, 0xFF, 0x3F, 0x3E, 0xFE, 0xFA, 0x3A,
  0x3B, 0xFB, 0x39, 0xF9, 0xF8, 0x38, 0x28, 0xE8, 0xE9, 0x29,
  0xEB, 0x2B, 0x2A, 0xEA, 0xEE, 0x2E, 0x2F, 0xEF, 0x2D, 0xED,
  0xEC, 0x2C, 0xE4, 0x24, 0x25, 0xE5, 0x27, 0xE7, 0xE6, 0x26,
  0x22, 0xE2, 0xE3, 0x23, 0xE1, 0x21, 0x20, 0xE0, 0xA0, 0x60,
  0x61, 0xA1, 0x63, 0xA3, 0xA2, 0x62, 0x66, 0xA6, 0xA7, 0x67,
  0xA5, 0x65, 0x64, 0xA4, 0x6C, 0xAC, 0xAD, 0x6D, 0xAF, 0x6F,
  0x6E, 0xAE, 0xAA, 0x6A, 0x6B, 0xAB, 0x69, 0xA9, 0xA8, 0x68,
  0x78, 0xB8, 0xB9, 0x79, 0xBB, 0x7B, 0x7A, 0xBA, 0xBE, 0x7E,
  0x7F, 0xBF, 0x7D, 0xBD, 0xBC, 0x7C, 0xB4, 0x74, 0x75, 0xB5,
  0x77, 0xB7, 0xB6, 0x76, 0x72, 0xB2, 0xB3, 0x73, 0xB1, 0x71,
  0x70, 0xB0, 0x50, 0x90, 0x91, 0x51, 0x93, 0x53, 0x52, 0x92,
  0x96, 0x56, 0x57, 0x97, 0x55, 0x95, 0x94, 0x54, 0x9C, 0x5C,
  0x5D, 0x9D, 0x5F, 0x9F, 0x9E, 0x5E, 0x5A, 0x9A, 0x9B, 0x5B,
  0x99, 0x59, 0x58, 0x98, 0x88, 0x48, 0x49, 0x89, 0x4B, 0x8B,
  0x8A, 0x4A, 0x4E, 0x8E, 0x8F, 0x4F, 0x8D, 0x4D, 0x4C, 0x8C,
  0x44, 0x84, 0x85, 0x45, 0x87, 0x47, 0x46, 0x86, 0x82, 0x42,
  0x43, 0x83, 0x41, 0x81, 0x80, 0x40]

/-- Byte table `ModbusCRC16.CRC_HI_TABLE` from src/modbus_rtu.py. -/
def CRC_HI_TABLE : List Nat := [
  0x00, 0xC1, 0x81, 0x40, 0x01, 0xC0, 0x80, 0x41, 0x01, 0xC0,
  0x80, 0x41, 0x00, 0xC1, 0x81, 0x40, 0x01, 0xC0, 0x80, 0x41,
  0x00, 0xC1, 0x81, 0x40, 0x00, 0xC1, 0x81, 0x40, 0x01, 0xC0,
  0x80, 0x41, 0x01, 0xC0, 0x80, 0x41, 0x00, 0xC1, 0x81, 0x40,
  0x00, 0xC1, 0x81, 0x40, 0x01, 0xC0, 0x80, 0x41, 0x00, 0xC1,
  0x81, 0x40, 0x01, 0xC0, 0x80, 0x41, 0x01, 0xC0, 0x80, 0x41,
  0x00, 0xC1, 0x81, 0x40, 0x01, 0xC0, 0x80, 0x41, 0x00, 0xC1,
  0x81, 0x40, 0x00, 0xC1, 0x81, 0x40, 0x01, 0xC0, 0x80, 0x41,
  0x00, 0xC1, 0x81, 0x40, 0x01, 0xC0, 0x80, 0x41, 0x01, 0xC0,
  0x80, 0x41, 0x00, 0xC1, 0x81, 0x40, 0x00, 0xC1, 0x81, 0x40,
  0x01, 0xC0, 0x80, 0x41, 0x01, 0xC0, 0x80, 0x41, 0x00, 0xC1,
  0x81, 0x40, 0x01, 0xC0, 0x80, 0x41, 0x00, 0xC1, 0x81, 0x40,
  0x00, 0xC1, 0x81, 0x40, 0x01, 0xC0, 0x80, 0x41, 0x01, 0xC0,
  0x80, 0x41, 0x00, 0xC1, 0x81, 0x40, 0x00, 0xC1, 0x81, 0x40,
  0x01, 0xC0, 0x80, 0x41, 0x00, 0xC1, 0x81, 0x40, 0x01, 0xC0,
  0x80, 0x41, 0x01, 0xC0, 0x80, 0x41, 0x00, 0xC1, 0x81, 0x40,
  0x00, 0xC1, 0x81, 0x40, 0x01, 0xC0, 0x80, 0x41, 0x01, 0xC0,
  0x80, 0x41, 0x00, 0xC1, 0x81, 0x40, 0x01, 0xC0, 0x80, 0x41,
  0x00, 0xC1, 0x81, 0x40, 0x00, 0xC1, 0x81, 0x40, 0x01, 0xC0,
  0x80, 0x41, 0x00, 0xC1, 0x81, 0x40, 0x01, 0xC0, 0x80, 0x41,
  0x01, 0xC0, 0x80, 0x41, 0x00, 0xC1, 0x81, 0x40, 0x01, 0xC0,
  0x80, 0x41, 0x00, 0xC1, 0x81, 0x40, 0x00, 0xC1, 0x81, 0x40,
  0x01, 0xC0, 0x80, 0x41, 0x01, 0xC0, 0x80, 0x41, 0x00, 0xC1,
  0x81, 0x40, 0x00, 0xC1, 0x81, 0x40, 0x01, 0xC0, 0x80, 0x41,
  0x00, 0xC1, 0x81, 0x40, 0x01, 0xC0, 0x80, 0x41, 0x01, 0xC0,
  0x80, 0x41, 0x00, 0xC1, 0x81, 0x40]

/-- Single loop iteration of `ModbusCRC16.calculate`: state is the pair
of the running variables `(crc_hi, crc_lo)` of the Python code. -/
def crcStep (st : Nat × Nat) (b : Nat) : Nat × Nat :=
  let index := st.1 ^^^ b
  (st.2 ^^^ CRC_HI_TABLE.getD index 0, CRC_LO_TABLE.getD index 0)

/-- Embedding of `ModbusCRC16.calculate`: seeds both running variables
to 0xFF and folds `crcStep` over the input; returns the final pair in
the order of the Python `return crc_hi, crc_lo` statement. -/
def calculate (data : List Nat) : Nat × Nat :=
  data.foldl crcStep (0xFF, 0xFF)

/-- Embedding of `ModbusCRC16.verify`: false on inputs shorter than two
bytes, otherwise recomputes the checksum over all but the last two bytes
and compares componentwise, first returned component against the
second-to-last byte and second component against the last byte. -/
def verify (data : List Nat) : Bool :=
  if data.length < 2 then false
  else
    let message := data.take (data.length - 2)
    let received_crc_lo := data.getD (data.length - 2) 0
    let received_crc_hi := data.getD (data.length - 1) 0
    let c := calculate message
    received_crc_lo == c.1 && received_crc_hi == c.2

/-- Embedding of `ModbusRTUClient._build_frame`: address byte, operation
code byte, payload, then the two checksum bytes in the order `calculate`
returns them. Callers keep `slave_id` and `function_code` below 256
(struct.pack range-checks them in the source). -/
def build_frame (slave_id function_code : Nat) (data : List Nat) : List Nat :=
  let frame := slave_id :: function_code :: data
  let c := calculate frame
  frame ++ [c.1, c.2]

/-- Failure cases raised by the Modbus RTU client in src/modbus_rtu.py:
ModbusRTUException for short frames, address mismatches and device error
responses, ModbusRTUCRCException for checksum failures, and
ModbusRTUTimeoutException when no response bytes arrive. -/
inductive ModbusFailure where
  | frameTooShort
  | crcError
  | timeoutError
  | addressMismatch (expected got : Nat)
  | deviceError (function_code error_code : Nat)
deriving DecidableEq, Repr

/-- Embedding of the ModbusRTUResponse record: unit address, operation
code, payload (raw frame minus address, code and checksum) and the raw
frame itself. -/
structure ModbusResponse where
  slave_id : Nat
  function_code : Nat
  data : List Nat
  raw_data : List Nat
deriving DecidableEq, Repr

/-- Embedding of the is_error field set in ModbusRTUResponse.__init__:
bit 0x80 of the operation code. -/
def is_error (r : ModbusResponse) : Bool :=
  (r.function_code &&& 0x80) != 0

/-- Embedding of `ModbusRTUClient._parse_response`: frames shorter than
4 bytes are rejected, then the checksum is verified, then the frame is
split into unit address (byte 0), operation code (byte 1) and payload
(bytes 2 up to the checksum). -/
def parse_response (response_data : List Nat) : Except ModbusFailure ModbusResponse :=
  if response_data.length < 4 then .error .frameTooShort
  else if verify response_data = false then .error .crcError
  else .ok { slave_id := response_data.getD 0 0,
             function_code := response_data.getD 1 0,
             data := (response_data.drop 2).take (response_data.length - 4),
             raw_data := response_data }

/-- State of the serial channel as seen by one client: the frames written
so far and the frames the device will deliver to successive receive
calls. A receive on an empty pending list is the transport timeout of
`_receive_frame`. -/
structure Transport where
  sent : List (List Nat)
  pending : List (List Nat)
deriving DecidableEq, Repr

/-- Embedding of `ModbusRTUClient.execute_request`: build the request
frame, send it (exactly once), receive one response frame (exactly one),
parse it, then check the unit address and the error bit. The returned
transport records the channel effects; the Except value is the outcome.
There is no retry on any failure path. -/
def execute_request (slave_id function_code : Nat) (data : List Nat)
    (t : Transport) : Transport × Except ModbusFailure ModbusResponse :=
  let request_frame := build_frame slave_id function_code data
  match t.pending with
  | [] => (⟨t.sent ++ [request_frame], []⟩, .error .timeoutError)
  | response_data :: rest =>
    let t2 : Transport := ⟨t.sent ++ [request_frame], rest⟩
    match parse_response response_data with
    | .error e => (t2, .error e)
    | .ok response =>
      if response.slave_id ≠ slave_id then
        (t2, .error (.addressMismatch slave_id response.slave_id))
      else if is_error response then
        (t2, .error (.deviceError function_code (response.data.headD 0)))
      else
        (t2, .ok response)

/-- Helper for C3: the transport effect of one execute_request call is
the same on every outcome path: exactly one request frame is written and
exactly one pending response is consumed (no retry). -/
theorem execute_request_transport (slave_id function_code : Nat)
    (data : List Nat) (t : Transport) (resp : List Nat)
    (rest : List (List Nat)) (h : t.pending = resp :: rest) :
    (execute_request slave_id function_code data t).1 =
      ⟨t.sent ++ [build_frame slave_id function_code data], rest⟩ := by
  unfold execute_request
  rw [h]
  dsimp only
  cases hp : parse_response resp with
  | error e => rfl
  | ok r =>
    dsimp only
    split
    · rfl
    · split
      · rfl
      · rfl

/-- C3: one call of execute_request, with the device about to deliver
the frame resp: it fails with frameTooShort when resp is shorter than 4
bytes; with crcError when checksum verification fails; with
addressMismatch when the response unit address differs from the request
one; with deviceError carrying the first payload byte when bit 0x80 of
the response operation code is set; otherwise it returns the response
whose payload is every byte between the operation code and the checksum.
On every one of these paths it sends exactly one request frame and
consumes exactly one response: there is no retry. -/
theorem execute_request_spec (slave_id function_code : Nat) (data : List Nat)
    (t : Transport) (resp : List Nat) (rest : List (List Nat))
    (h : t.pending = resp :: rest) :
    (resp.length < 4 →
      (execute_request slave_id function_code data t).2 =
        .error .frameTooShort) ∧
    (4 ≤ resp.length → verify resp = false →
      (execute_request slave_id function_code data t).2 =
        .error .crcError) ∧
    (4 ≤ resp.length → verify resp = true → resp.getD 0 0 ≠ slave_id →
      (execute_request slave_id function_code data t).2 =
        .error (.addressMismatch slave_id (resp.getD 0 0))) ∧
    (∀ e es, 4 ≤ resp.length → verify resp = true →
      resp.getD 0 0 = slave_id → (resp.getD 1 0) &&& 0x80 ≠ 0 →
      (resp.drop 2).take (resp.length - 4) = e :: es →
      (execute_request slave_id function_code data t).2 =
        .error (.deviceError function_code e)) ∧
    (4 ≤ resp.length → verify resp = true → resp.getD 0 0 = slave_id →
      (resp.getD 1 0) &&& 0x80 = 0 →
      (execute_request slave_id function_code data t).2 =
        .ok ⟨slave_id, resp.getD 1 0,
             (resp.drop 2).take (resp.length - 4), resp⟩) ∧
    ((execute_request slave_id function_code data t).1 =
      ⟨t.sent ++ [build_frame slave_id function_code data], rest⟩) := by
  refine ⟨?_, ?_, ?_, ?_, ?_, ?_⟩
  · intro hshort
    unfold execute_request
    rw [h]
    dsimp only
    rw [show parse_response resp = .error .frameTooShort by
      unfold parse_response
      rw [if_pos hshort]]
  · intro hlen hver
    unfold execute_request
    rw [h]
    dsimp only
    rw [show parse_response resp = .error .crcError by
      unfold parse_response
      rw [if_neg (by omega : ¬ resp.length < 4), if_pos hver]]
  · intro hlen hver hne
    unfold execute_request
    rw [h]
    dsimp only
    rw [show parse_response resp =
        .ok ⟨resp.getD 0 0, resp.getD 1 0,
             (resp.drop 2).take (resp.length - 4), resp⟩ by
      unfold parse_response
      rw [if_neg (by omega : ¬ resp.length < 4),
          if_neg (by simp [hver])]]
    dsimp only
    rw [if_pos hne]
  · intro e es hlen hver haddr hbit hdata
    unfold execute_request
    rw [h]
    dsimp only
    rw [show parse_response resp =
        .ok ⟨resp.getD 0 0, resp.getD 1 0,
             (resp.drop 2).take (resp.length - 4), resp⟩ by
      unfold parse_response
      rw [if_neg (by omega : ¬ resp.length < 4),
          if_neg (by simp [hver])]]
    dsimp only
    rw [if_neg (by simpa using haddr)]
    rw [if_pos (by simp only [is_error, bne_iff_ne]; exact hbit)]
    rw [hdata]
    rfl
  · intro hlen hver haddr hbit
    unfold execute_request
    rw [h]
    dsimp only
    rw [show parse_response resp =
        .ok ⟨resp.getD 0 0, resp.getD 1 0,
             (resp.drop 2).take (resp.length - 4), resp⟩ by
      unfold parse_response
      rw [if_neg (by omega : ¬ resp.length < 4),
          if_neg (by simp [hver])]]
    dsimp only
    rw [if_neg (by simpa using haddr)]
    rw [if_neg (by simp only [is_error, bne_iff_ne]; exact fun hc => hc hbit)]
    rw [haddr]
  · exact execute_request_transport slave_id function_code data t resp rest h

/-- Witness for C3 at a too-short response frame [1, 2, 3]. -/
theorem execute_request_spec_witness :
    (execute_request 1 1 [] ⟨[], [[0x01, 0x02, 0x03]]⟩).2 =
      Except.error ModbusFailure.frameTooShort :=
  (execute_request_spec 1 1 [] ⟨[], [[0x01, 0x02, 0x03]]⟩
    [0x01, 0x02, 0x03] [] rfl).1 (by decide)

/-- Decode step of `ModbusRTUClient.read_coils` on the already validated
response payload: byte 0 is the byte count, the next byte_count bytes are
the packed bits, and bit i (for i below count) comes from bit i % 8 of
packed byte i / 8 when that byte was received, else false. -/
def read_coils_decode (count : Nat) (data : List Nat) : List Bool :=
  let byte_count := data.headD 0
  let coil_data := (data.drop 1).take byte_count
  (List.range count).map (fun i =>
    if i / 8 < coil_data.length then
      ((coil_data.getD (i / 8) 0) >>> (i % 8)) &&& 1 == 1
    else false)

/-- Decode step of `ModbusRTUClient.read_discrete_inputs`, byte for byte
the same computation as the read_coils decode. -/
def read_discrete_inputs_decode (count : Nat) (data : List Nat) : List Bool :=
  let byte_count := data.headD 0
  let input_data := (data.drop 1).take byte_count
  (List.range count).map (fun i =>
    if i / 8 < input_data.length then
      ((input_data.getD (i / 8) 0) >>> (i % 8)) &&& 1 == 1
    else false)

/-- C8: the response payload with byte count 1 and single data byte
0b00000101, read with count 3, decodes to [true, false, true]; and in
general bit i of the decoded list is bit i % 8 of received data byte
i / 8 (LSB-first within each byte) whenever that byte is present, with
only the first count bits produced at all. -/
theorem read_coils_decode_fixture :
    read_coils_decode 3 [1, 0b00000101] = [true, false, true] ∧
    (∀ count data i, i < count →
      i / 8 < ((data.drop 1).take (data.headD 0)).length →
      (read_coils_decode count data).getD i false =
        Nat.testBit (((data.drop 1).take (data.headD 0)).getD (i / 8) 0)
          (i % 8)) := by
  constructor
  · rfl
  · intro count data i hi hbyte
    unfold read_coils_decode
    dsimp only
    rw [List.getD_eq_getElem _ _ (by simpa using hi)]
    rw [List.getElem_map, List.getElem_range]
    rw [if_pos hbyte]
    simp [Nat.testBit_to_div_mod, Nat.shiftRight_eq_div_pow,
      Nat.and_one_is_mod, beq_eq_decide]

/-- Witness for C8 at count 2, payload [1, 0b10], bit index 1. -/
theorem read_coils_decode_fixture_witness :
    (read_coils_decode 2 [1, 0b10]).getD 1 false =
      Nat.testBit ((([1, 0b10].drop 1).take ([1, 0b10].headD 0)).getD (1 / 8) 0)
        (1 % 8) :=
  read_coils_decode_fixture.2 2 [1, 0b10] 1 (by decide) (by decide)

/-- C9: for every count and every payload carrying at least its leading
byte-count byte, both bit-read decodes return exactly count booleans,
they agree with each other, and every bit whose byte index lies beyond
the received data bytes decodes to false. All list accesses in the
decode are guarded by the byte-index bound, so none is out of range. -/
theorem read_bits_decode_safe (count : Nat) (data : List Nat)
    (_hne : data ≠ []) :
    (read_coils_decode count data).length = count ∧
    (read_discrete_inputs_decode count data).length = count ∧
    read_discrete_inputs_decode count data = read_coils_decode count data ∧
    (∀ i, i < count →
      ((data.drop 1).take (data.headD 0)).length ≤ i / 8 →
      (read_coils_decode count data).getD i false = false) := by
  refine ⟨?_, ?_, rfl, ?_⟩
  · unfold read_coils_decode
    simp
  · unfold read_discrete_inputs_decode
    simp
  · intro i hi hbeyond
    unfold read_coils_decode
    dsimp only
    rw [List.getD_eq_getElem _ _ (by simpa using hi)]
    rw [List.getElem_map, List.getElem_range]
    rw [if_neg (by omega)]

/-- Witness for C9 at count 9 and the fixture payload [1, 5]: nine bits
come back and bit 8 (beyond the single received byte) is false. -/
theorem read_bits_decode_safe_witness :
    (read_coils_decode 9 [1, 5]).length = 9 ∧
    (read_coils_decode 9 [1, 5]).getD 8 false = false :=
  ⟨(read_bits_decode_safe 9 [1, 5] (by decide)).1,
   (read_bits_decode_safe 9 [1, 5] (by decide)).2.2.2 8 (by decide) (by decide)⟩

/-- Outcome of a Python struct.unpack call: it raises struct.error
unless the buffer length matches the format size exactly. -/
inductive StructFailure where
  | unpackSizeMismatch
deriving DecidableEq, Repr

/-- Embedding of struct.unpack with format \x3eHH applied to a byte
sequence: exactly 4 bytes are required, decoded as two big-endian 16-bit
values; any other length raises struct.error. -/
def unpack_u16be_pair (b : List Nat) : Except StructFailure (Nat × Nat) :=
  if b.length = 4 then
    .ok (b.getD 0 0 * 256 + b.getD 1 0, b.getD 2 0 * 256 + b.getD 3 0)
  else .error .unpackSizeMismatch

/-- Echo-check step of `ModbusRTUClient.write_single_coil` on the
non-error response payload: unpack two big-endian 16-bit values and
compare them with the written address and the 0xFF00/0x0000 coil value. -/
def write_single_coil_check (address : Nat) (value : Bool)
    (resp_data : List Nat) : Except StructFailure Bool :=
  let coil_value := if value then 0xFF00 else 0x0000
  match unpack_u16be_pair resp_data with
  | .error e => .error e
  | .ok p => .ok (p.1 == address && p.2 == coil_value)

/-- Echo-check step of `ModbusRTUClient.write_single_register` on the
non-error response payload: unpack two big-endian 16-bit values and
compare them with the written address and register value. -/
def write_single_register_check (address value : Nat)
    (resp_data : List Nat) : Except StructFailure Bool :=
  match unpack_u16be_pair resp_data with
  | .error e => .error e
  | .ok p => .ok (p.1 == address && p.2 == value)

/-- C10: the single-write echo checks return a boolean comparison result
exactly when the non-error echo payload is 4 bytes long; for every other
payload length they raise the struct unpack failure instead of returning
false. -/
theorem single_write_echo_length (address value : Nat) (flag : Bool)
    (resp_data : List Nat) :
    (resp_data.length = 4 →
      (∃ b, write_single_coil_check address flag resp_data = .ok b) ∧
      (∃ b, write_single_register_check address value resp_data = .ok b)) ∧
    (resp_data.length ≠ 4 →
      write_single_coil_check address flag resp_data =
        .error .unpackSizeMismatch ∧
      write_single_register_check address value resp_data =
        .error .unpackSizeMismatch) := by
  constructor
  · intro h4
    unfold write_single_coil_check write_single_register_check
      unpack_u16be_pair
    rw [if_pos h4]
    exact ⟨⟨_, rfl⟩, ⟨_, rfl⟩⟩
  · intro hne
    unfold write_single_coil_check write_single_register_check
      unpack_u16be_pair
    rw [if_neg hne]
    exact ⟨rfl, rfl⟩

/-- Witness for C10 at a 4-byte echo and a 3-byte echo. -/
theorem single_write_echo_length_witness :
    ((∃ b, write_single_coil_check 0 true [0, 0, 0xFF, 0] = .ok b) ∧
      (∃ b, write_single_register_check 0 7 [0, 0, 0xFF, 0] = .ok b)) ∧
    (write_single_coil_check 0 true [0, 0, 0xFF] =
        .error .unpackSizeMismatch ∧
      write_single_register_check 0 7 [0, 0, 0xFF] =
        .error .unpackSizeMismatch) :=
  ⟨(single_write_echo_length 0 7 true [0, 0, 0xFF, 0]).1 (by decide),
   (single_write_echo_length 0 7 true [0, 0, 0xFF]).2 (by decide)⟩

/-- Helper for C2: appending the two bytes returned by `calculate` (in
that order) to any byte sequence yields a frame `verify` accepts. -/
theorem verify_append_calc (b : List Nat) :
    verify (b ++ [(calculate b).1, (calculate b).2]) = true := by
  have hlen : (b ++ [(calculate b).1, (calculate b).2]).length = b.length + 2 := by
    simp
  unfold verify
  rw [hlen]
  rw [if_neg (by omega : ¬ (b.length + 2 < 2))]
  have h2 : b.length + 2 - 2 = b.length := by omega
  have h3 : b.length + 2 - 1 = b.length + 1 := by omega
  dsimp only
  rw [h2, h3, List.take_left]
  rw [List.getD_append_right _ _ _ _ (Nat.le_refl _)]
  rw [List.getD_append_right _ _ _ _ (by omega : b.length ≤ b.length + 1)]
  simp

/-- C1: for the canonical input [0x01,0x01,0x00,0x13,0x00,0x25] the
checksum is the pair (0x0C, 0x14), and the request frame encoded for unit
address 1, operation code 0x01, payload [0x00,0x13,0x00,0x25] is exactly
[0x01,0x01,0x00,0x13,0x00,0x25,0x0C,0x14]: the first component of the
checksum pair (the low byte) is appended before the second (the high
byte). -/
theorem crc_fixture_and_frame :
    calculate [0x01, 0x01, 0x00, 0x13, 0x00, 0x25] = (0x0C, 0x14) ∧
    build_frame 1 0x01 [0x00, 0x13, 0x00, 0x25] =
      [0x01, 0x01, 0x00, 0x13, 0x00, 0x25, 0x0C, 0x14] := by
  constructor
  · rfl
  · rfl

/-- C2: for every non-empty byte sequence b, verifying b with its own
checksum appended (first returned component first) succeeds, and every
sequence shorter than two bytes is rejected by verify. -/
theorem verify_roundtrip_spec :
    (∀ b : List Nat, b ≠ [] →
      verify (b ++ [(calculate b).1, (calculate b).2]) = true) ∧
    (∀ c : List Nat, c.length < 2 → verify c = false) := by
  constructor
  · intro b _
    exact verify_append_calc b
  · intro c hc
    unfold verify
    rw [if_pos hc]

/-- Witness for C2 at the one-byte sequence [0x01] and the one-byte
sequence [0x07]. -/
theorem verify_roundtrip_spec_witness :
    verify ([0x01] ++ [(calculate [0x01]).1, (calculate [0x01]).2]) = true ∧
    verify [0x07] = false :=
  ⟨verify_roundtrip_spec.1 [0x01] (by decide),
   verify_roundtrip_spec.2 [0x07] (by decide)⟩

/-- Status cache of USBRelayDaemon: last_relay_states,
last_input_states and last_status_time (time modelled as Nat). -/
structure StatusCache where
  last_relay_states : List Bool
  last_input_states : List Bool
  last_status_time : Nat
deriving DecidableEq, Repr

/-- Relay device as seen through the daemon's controller: the relay bits
plus a count of serial transactions executed so far. Every controller
call that reaches the hardware bumps the counter; a request that leaves
the counter unchanged performed no device transaction. -/
structure Device where
  relays : List Bool
  transactions : Nat
deriving DecidableEq, Repr

/-- Controller write of one relay bit (USBRelayController.set_relay_state,
one write-single-coil transaction); outcomes of a healthy device. -/
def ctrl_set_relay (relay_id : Nat) (state : Bool) (d : Device) :
    Device × Bool :=
  (⟨d.relays.set relay_id state, d.transactions + 1⟩, true)

/-- Controller toggle of one relay bit (USBRelayController.toggle_relay:
a read transaction followed by a write transaction). -/
def ctrl_toggle_relay (relay_id : Nat) (d : Device) : Device × Bool :=
  let cur := d.relays.getD relay_id false
  (⟨d.relays.set relay_id (!cur), d.transactions + 2⟩, true)

/-- IPC requests understood by `_process_request_with_retry`; any other
command string is the unknown case. -/
inductive IPCRequest where
  | get_status
  | set_relay (relay_id : Nat) (state : Option Bool)
  | pulse_relay (relay_id : Nat) (duration : Nat)
  | unknown
deriving DecidableEq, Repr

/-- IPC replies of the daemon: the busy error sent when serial_lock is
not acquired within the timeout, the cached status reply, a success
flag, or the unknown-command error. -/
inductive IPCReply where
  | busyError
  | status (relay_states input_states : List Bool) (last_update : Nat)
  | result (success : Bool)
  | unknownCommand
deriving DecidableEq, Repr

/-- Success field of a reply dict: true for the cached status reply,
the flag for a command result, false for busy and unknown errors. -/
def reply_success : IPCReply → Bool
  | .busyError => false
  | .status _ _ _ => true
  | .result b => b
  | .unknownCommand => false

/-- Embedding of `USBRelayDaemon._process_request_with_retry` on a
healthy device (controller calls succeed, so the bounded retry loop
returns on its first attempt): get_status is served from the status
cache alone, set_relay writes or toggles the bit, pulse_relay turns the
bit on and then off. -/
def process_request (req : IPCRequest) (cache : StatusCache)
    (dev : Device) : IPCReply × Device :=
  match req with
  | .get_status =>
    (.status cache.last_relay_states cache.last_input_states
       cache.last_status_time, dev)
  | .set_relay relay_id state =>
    match state with
    | none =>
      let r := ctrl_toggle_relay relay_id dev
      (.result r.2, r.1)
    | some s =>
      let r := ctrl_set_relay relay_id s dev
      (.result r.2, r.1)
  | .pulse_relay relay_id _ =>
    let d1 := (ctrl_set_relay relay_id true dev).1
    let d2 := (ctrl_set_relay relay_id false d1).1
    (.result true, d2)
  | .unknown => (.unknownCommand, dev)

/-- Timeout (seconds) of the serial_lock.acquire call in
`_handle_client_safe`. -/
def SERIAL_LOCK_TIMEOUT_SECONDS : Nat := 3

/-- Embedding of one request iteration of
`USBRelayDaemon._handle_client_safe`: acquired is the outcome of
serial_lock.acquire with the 3 second timeout; when the lock is not
obtained the reply is the busy error and nothing else runs, otherwise
the request is processed under the lock. -/
def handle_request (acquired : Bool) (req : IPCRequest)
    (cache : StatusCache) (dev : Device) : IPCReply × Device :=
  if acquired = false then (.busyError, dev)
  else process_request req cache dev

/-- C5 (amended): whenever the handler does acquire the serial lock, a
get_status request is answered solely from the status cache and the
device is untouched (same state, same transaction count: no device
transaction runs). The never-busy half of the original claim is refuted
by get_status_busy_counterexample. -/
theorem get_status_from_cache (cache : StatusCache) (dev : Device)
    (acq : Bool) (hacq : acq = true) :
    handle_request acq .get_status cache dev =
      (.status cache.last_relay_states cache.last_input_states
         cache.last_status_time, dev) := by
  subst hacq
  rfl

/-- Witness for C5 at a concrete cache and device. -/
theorem get_status_from_cache_witness :
    handle_request true .get_status ⟨[true], [false], 5⟩ ⟨[true], 0⟩ =
      (.status [true] [false] 5, ⟨[true], 0⟩) :=
  get_status_from_cache ⟨[true], [false], 5⟩ ⟨[true], 0⟩ true rfl

/-- Counterexample for C5: the handler acquires the serial lock for
every command, get_status included, so when the lock is not obtained
within the timeout the get_status request is refused with the busy
error (a reply with success false) instead of being served from the
cache. -/
theorem get_status_busy_counterexample :
    handle_request false .get_status ⟨[], [], 0⟩ ⟨[], 0⟩ =
      (.busyError, ⟨[], 0⟩) ∧
    reply_success (handle_request false .get_status ⟨[], [], 0⟩
      ⟨[], 0⟩).1 = false := by
  exact ⟨rfl, rfl⟩

/-- C6: a request whose serial-lock acquisition fails within the
configured bound (3 seconds in the source) is answered with the busy
error, whose success field is false, and the device state is not
modified by that request. -/
theorem busy_reply_spec :
    SERIAL_LOCK_TIMEOUT_SECONDS = 3 ∧
    ∀ (req : IPCRequest) (cache : StatusCache) (dev : Device),
      handle_request false req cache dev = (.busyError, dev) ∧
      reply_success (handle_request false req cache dev).1 = false := by
  exact ⟨rfl, fun req cache dev => ⟨rfl, rfl⟩⟩

/-- Daemon status reply as the smart helpers build it: success flag,
cached or freshly read states, and the error string of a failed direct
read. The failure dict of the source carries only success and error;
it is modelled with empty state lists. -/
structure StatusReply where
  success : Bool
  relay_states : List Bool
  input_states : List Bool
  error : Option String
deriving DecidableEq, Repr

/-- Embedding of `execute_relay_command_smart`: daemon_running is the
liveness-artifact check is_daemon_running(); daemon_call is the outcome
of the DaemonClient relay command (error means the exchange raised);
direct_call is the outcome of the one-shot USBRelayController action
(error means it raised, which the source turns into False). -/
def execute_relay_command_smart (daemon_running : Bool)
    (daemon_call : Except Unit Bool)
    (direct_call : Except Unit Bool) : Bool :=
  let direct : Bool :=
    match direct_call with
    | .ok b => b
    | .error _ => false
  if daemon_running then
    match daemon_call with
    | .ok b => b
    | .error _ => direct
  else direct

/-- Embedding of `get_status_smart`: same dispatch structure; a failing
direct read returns a dict with success false and the error string. -/
def get_status_smart (daemon_running : Bool)
    (daemon_call : Except Unit StatusReply)
    (direct_call : Except String StatusReply) : StatusReply :=
  let direct : StatusReply :=
    match direct_call with
    | .ok r => r
    | .error e => ⟨false, [], [], some e⟩
  if daemon_running then
    match daemon_call with
    | .ok r => r
    | .error _ => direct
  else direct

/-- C7 (amended): when the liveness artifact is absent both smart
helpers run through the direct one-shot controller, and when the
artifact is present but the daemon exchange raises they fall back to the
direct path; the result, however, does not report which path was used
(refuted by smart_no_path_report_counterexample). -/
theorem smart_dispatch_spec :
    (∀ (dc : Except Unit Bool) (b : Bool),
      execute_relay_command_smart false dc (.ok b) = b) ∧
    (∀ dc : Except Unit Bool,
      execute_relay_command_smart false dc (.error ()) = false) ∧
    (∀ b : Bool,
      execute_relay_command_smart true (.error ()) (.ok b) = b) ∧
    (execute_relay_command_smart true (.error ()) (.error ()) = false) ∧
    (∀ (sc : Except Unit StatusReply) (r : StatusReply),
      get_status_smart false sc (.ok r) = r) ∧
    (∀ r : StatusReply,
      get_status_smart true (.error ()) (.ok r) = r) ∧
    (∀ e : String,
      get_status_smart true (.error ()) (.error e) =
        ⟨false, [], [], some e⟩) := by
  exact ⟨fun dc b => rfl, fun dc => rfl, fun b => rfl, rfl,
    fun sc r => rfl, fun r => rfl, fun e => rfl⟩

/-- Counterexample for C7: a failure produced by the daemon path (the
daemon is running and replies success false; the direct controller,
never consulted, would have succeeded) and a failure produced by the
direct path (no daemon; the direct call raises) yield the identical
result false, so the result of a smart helper does not report which
path (daemon or direct) was used. -/
theorem smart_no_path_report_counterexample :
    execute_relay_command_smart true (.ok false) (.ok true) = false ∧
    execute_relay_command_smart false (.ok true) (.error ()) = false ∧
    execute_relay_command_smart true (.ok false) (.ok true) =
      execute_relay_command_smart false (.ok true) (.error ()) := by
  exact ⟨rfl, rfl, rfl⟩

/-- Threads of the daemon that reach the serial channel: the background
status poller of `_background_status_update` and the per-connection
client handler threads of `_handle_client_safe`. -/
inductive Tid where
  | poller
  | handler (n : Nat)
deriving DecidableEq, Repr

/-- Position of a thread with respect to serial_lock: before its acquire
attempt, inside the acquired region with k device operations left in its
transaction, bowed out after a failed acquire (busy reply for a handler,
skipped update for the poller), or finished after its release. -/
inductive LockPhase where
  | idle
  | inCS (remaining : Nat)
  | failed
  | finished
deriving DecidableEq, Repr

/-- Pointwise update of a thread phase map. -/
def setPhase (f : Tid → LockPhase) (t : Tid) (p : LockPhase) :
    Tid → LockPhase :=
  fun u => if u = t then p else f u

/-- Shared daemon state: the serial_lock holder (none when the lock is
free) and each thread phase. -/
structure LockState where
  holder : Option Tid
  phase : Tid → LockPhase

/-- Initial state: serial_lock free, every thread before its attempt. -/
def initLock : LockState :=
  ⟨none, fun _ => LockPhase.idle⟩

/-- Observable events of the daemon threads on the serial channel. -/
inductive Event where
  | acquire (t : Tid) (n : Nat)
  | acquireFail (t : Tid)
  | deviceOp (t : Tid)
  | release (t : Tid)
deriving DecidableEq, Repr

/-- One interleaving step, following the lock discipline of the source:
serial_lock.acquire succeeds only while the lock is free (blocking with
timeout in the handlers, non-blocking in the poller) and makes the
caller the holder; a failed acquire ends the attempt; a device
transaction (a controller call, hence an execute_request on the serial
port) happens only inside a thread's acquired region; the release in
the finally block frees the lock. -/
inductive LockStep : LockState → Event → LockState → Prop where
  | acquire (s : LockState) (t : Tid) (n : Nat)
      (hfree : s.holder = none) (hph : s.phase t = .idle) :
      LockStep s (.acquire t n) ⟨some t, setPhase s.phase t (.inCS n)⟩
  | acquireFail (s : LockState) (t : Tid) (hph : s.phase t = .idle) :
      LockStep s (.acquireFail t) ⟨s.holder, setPhase s.phase t .failed⟩
  | deviceOp (s : LockState) (t : Tid) (n : Nat)
      (hph : s.phase t = .inCS (n + 1)) :
      LockStep s (.deviceOp t) ⟨s.holder, setPhase s.phase t (.inCS n)⟩
  | release (s : LockState) (t : Tid) (hph : s.phase t = .inCS 0) :
      LockStep s (.release t) ⟨none, setPhase s.phase t .finished⟩

/-- Finite runs of the daemon, labelled by their events. -/
inductive LockRun : LockState → List Event → LockState → Prop where
  | nil (s : LockState) : LockRun s [] s
  | cons (s s2 s3 : LockState) (e : Event) (es : List Event)
      (hstep : LockStep s e s2) (hrun : LockRun s2 es s3) :
      LockRun s (e :: es) s3

/-- Lock discipline invariant: any thread inside the serial critical
section is the current lock holder. -/
def LockInv (s : LockState) : Prop :=
  ∀ t n, s.phase t = LockPhase.inCS n → s.holder = some t

/-- Helper for C4: the initial state satisfies the invariant. -/
theorem lockInv_init : LockInv initLock := by
  intro t n h
  simp [initLock] at h


/-- Helper for C4: every step preserves the invariant. -/
theorem lockInv_step (s s2 : LockState) (e : Event)
    (hstep : LockStep s e s2) (hinv : LockInv s) : LockInv s2 := by
  cases hstep with
  | acquire v n hfree hph =>
    intro u m hu
    by_cases huv : u = v
    · subst huv
      rfl
    · have hh := hinv u m (by simpa [setPhase, huv] using hu)
      rw [hfree] at hh
      exact Option.noConfusion hh
  | acquireFail v hph =>
    intro u m hu
    by_cases huv : u = v
    · subst huv
      simp [setPhase] at hu
    · exact hinv u m (by simpa [setPhase, huv] using hu)
  | deviceOp v n hph =>
    intro u m hu
    by_cases huv : u = v
    · subst huv
      exact hinv u (n + 1) hph
    · exact hinv u m (by simpa [setPhase, huv] using hu)
  | release v hph =>
    intro u m hu
    by_cases huv : u = v
    · subst huv
      simp [setPhase] at hu
    · have hh := hinv u m (by simpa [setPhase, huv] using hu)
      have hv := hinv v 0 hph
      rw [hv] at hh
      exact absurd (Option.some.inj hh).symm huv

/-- Helper for C4: the invariant holds along every run. -/
theorem lockInv_run (es : List Event) (s s2 : LockState)
    (hrun : LockRun s es s2) (hinv : LockInv s) : LockInv s2 := by
  induction hrun with
  | nil s => exact hinv
  | cons s sa sb e es hstep hrun ih =>
    exact ih (lockInv_step _ _ _ hstep hinv)

/-- Helper for C4: runs decompose over list append. -/
theorem lockRun_append (es1 : List Event) :
    ∀ (es2 : List Event) (s s3 : LockState),
      LockRun s (es1 ++ es2) s3 →
      ∃ s2, LockRun s es1 s2 ∧ LockRun s2 es2 s3 := by
  induction es1 with
  | nil =>
    intro es2 s s3 h
    exact ⟨s, LockRun.nil s, h⟩
  | cons e es ih =>
    intro es2 s s3 h
    cases h with
    | cons s sa sb e2 esx hstep hrun =>
      obtain ⟨smid, h1, h2⟩ := ih es2 sa s3 hrun
      exact ⟨smid, LockRun.cons _ _ _ _ _ hstep h1, h2⟩

/-- Helper for C4: inversion of a run on a nonempty event list. -/
theorem lockRun_cons_inv (s s3 : LockState) (e : Event) (es : List Event)
    (h : LockRun s (e :: es) s3) :
    ∃ s2, LockStep s e s2 ∧ LockRun s2 es s3 :=
  match h with
  | .cons _ s2 _ _ _ hstep hrun => ⟨s2, hstep, hrun⟩

/-- Helper for C4: exhaustive inversion of a single step. -/
theorem lockStep_cases (s s2 : LockState) (e : Event)
    (h : LockStep s e s2) :
    (∃ v n, e = .acquire v n ∧ s.holder = none ∧
      s.phase v = .idle ∧
      s2 = ⟨some v, setPhase s.phase v (.inCS n)⟩) ∨
    (∃ v, e = .acquireFail v ∧ s.phase v = .idle ∧
      s2 = ⟨s.holder, setPhase s.phase v .failed⟩) ∨
    (∃ v n, e = .deviceOp v ∧ s.phase v = .inCS (n + 1) ∧
      s2 = ⟨s.holder, setPhase s.phase v (.inCS n)⟩) ∨
    (∃ v, e = .release v ∧ s.phase v = .inCS 0 ∧
      s2 = ⟨none, setPhase s.phase v .finished⟩) := by
  cases h with
  | acquire v n hfree hph => exact Or.inl ⟨v, n, rfl, hfree, hph, rfl⟩
  | acquireFail v hph => exact Or.inr (Or.inl ⟨v, rfl, hph, rfl⟩)
  | deviceOp v n hph => exact Or.inr (Or.inr (Or.inl ⟨v, n, rfl, hph, rfl⟩))
  | release v hph => exact Or.inr (Or.inr (Or.inr ⟨v, rfl, hph, rfl⟩))

/-- Helper for C4: while thread t holds serial_lock, no other thread can
perform a device operation before t releases: in any run from a state
held by t, a device operation of u is preceded by a release of t. -/
theorem release_before_other_deviceOp (t u : Tid) (hne : u ≠ t) :
    ∀ (es1 : List Event) (s s2 : LockState) (es2 : List Event),
      LockRun s (es1 ++ (Event.deviceOp u :: es2)) s2 →
      LockInv s → s.holder = some t → Event.release t ∈ es1 := by
  intro es1
  induction es1 with
  | nil =>
    intro s s2 es2 hrun hinv hhold
    rw [List.nil_append] at hrun
    obtain ⟨smid, hstep, hrun2⟩ := lockRun_cons_inv _ _ _ _ hrun
    rcases lockStep_cases _ _ _ hstep with
      ⟨v, n, hev, hfree, hph, hs2⟩ | ⟨v, hev, hph, hs2⟩ |
      ⟨v, n, hev, hph, hs2⟩ | ⟨v, hev, hph, hs2⟩
    · exact Event.noConfusion hev
    · exact Event.noConfusion hev
    · injection hev with huv
      subst huv
      have hh := hinv u n.succ hph
      rw [hhold] at hh
      exact absurd (Option.some.inj hh).symm hne
    · exact Event.noConfusion hev
  | cons e es ih =>
    intro s s2 es2 hrun hinv hhold
    rw [List.cons_append] at hrun
    obtain ⟨smid, hstep, hrun2⟩ := lockRun_cons_inv _ _ _ _ hrun
    have hinvmid : LockInv smid := lockInv_step _ _ _ hstep hinv
    rcases lockStep_cases _ _ _ hstep with
      ⟨v, n, hev, hfree, hph, hs2⟩ | ⟨v, hev, hph, hs2⟩ |
      ⟨v, n, hev, hph, hs2⟩ | ⟨v, hev, hph, hs2⟩
    · rw [hhold] at hfree
      exact Option.noConfusion hfree
    · subst hs2
      exact List.mem_cons_of_mem _ (ih _ s2 es2 hrun2 hinvmid hhold)
    · subst hs2
      exact List.mem_cons_of_mem _ (ih _ s2 es2 hrun2 hinvmid hhold)
    · have hv := hinv v 0 hph
      rw [hhold] at hv
      have hvt : t = v := Option.some.inj hv
      subst hvt
      rw [hev]
      exact List.mem_cons_self _ _

/-- C4: in the model of the daemon's serial_lock discipline, device
transactions of different threads (client handlers, background poller)
never run concurrently: in every reachable state at most one thread is
inside the serial critical section, and in every run two device
operations of distinct threads are separated by the release of the
first thread, so the device sees the transactions as contiguous blocks,
equal to a sequential execution of the same transactions. -/
theorem serial_transactions_exclusive :
    (∀ (es : List Event) (s : LockState), LockRun initLock es s →
      ∀ t u n m, s.phase t = LockPhase.inCS n →
        s.phase u = LockPhase.inCS m → t = u) ∧
    (∀ (l1 l2 l3 : List Event) (sf : LockState) (t u : Tid), t ≠ u →
      LockRun initLock
        (l1 ++ (Event.deviceOp t :: (l2 ++ (Event.deviceOp u :: l3)))) sf →
      Event.release t ∈ l2) := by
  constructor
  · intro es s hrun t u n m ht hu
    have hinv := lockInv_run es initLock s hrun lockInv_init
    have h1 := hinv t n ht
    have h2 := hinv u m hu
    rw [h1] at h2
    exact Option.some.inj h2
  · intro l1 l2 l3 sf t u hne hrun
    obtain ⟨s1, hrun1, hrun2⟩ :=
      lockRun_append l1 (Event.deviceOp t :: (l2 ++ (Event.deviceOp u :: l3)))
        initLock sf hrun
    have hinv1 := lockInv_run l1 initLock s1 hrun1 lockInv_init
    obtain ⟨smid, hstep, hrunRest⟩ := lockRun_cons_inv _ _ _ _ hrun2
    have hinv2 : LockInv smid := lockInv_step _ _ _ hstep hinv1
    rcases lockStep_cases _ _ _ hstep with
      ⟨v, n, hev, hfree, hph, hs2⟩ | ⟨v, hev, hph, hs2⟩ |
      ⟨v, n, hev, hph, hs2⟩ | ⟨v, hev, hph, hs2⟩
    · exact Event.noConfusion hev
    · exact Event.noConfusion hev
    · injection hev with hvt
      subst hvt
      have hhold1 : s1.holder = some t := hinv1 t n.succ hph
      subst hs2
      exact release_before_other_deviceOp t u (Ne.symm hne)
        l2 _ sf l3 hrunRest hinv2 hhold1
    · exact Event.noConfusion hev

/-- Witness for C4: a concrete run in which the poller performs a
transaction, releases, and only then handler 0 performs its own. -/
theorem serial_transactions_exclusive_witness :
    Event.release Tid.poller ∈
      [Event.release Tid.poller, Event.acquire (Tid.handler 0) 1] := by
  refine serial_transactions_exclusive.2 [Event.acquire Tid.poller 1]
    [Event.release Tid.poller, Event.acquire (Tid.handler 0) 1]
    [Event.release (Tid.handler 0)] ?_ Tid.poller (Tid.handler 0)
    (by decide) ?_
  rotate_left
  refine LockRun.cons _ _ _ _ _
    (LockStep.acquire initLock Tid.poller 1 rfl rfl) ?_
  refine LockRun.cons _ _ _ _ _
    (LockStep.deviceOp _ Tid.poller 0 (by simp [setPhase])) ?_
  refine LockRun.cons _ _ _ _ _
    (LockStep.release _ Tid.poller (by simp [setPhase])) ?_
  refine LockRun.cons _ _ _ _ _
    (LockStep.acquire _ (Tid.handler 0) 1 rfl
      (by simp [setPhase, initLock])) ?_
  refine LockRun.cons _ _ _ _ _
    (LockStep.deviceOp _ (Tid.handler 0) 0 (by simp [setPhase])) ?_
  refine LockRun.cons _ _ _ _ _
    (LockStep.release _ (Tid.handler 0) (by simp [setPhase])) ?_
  exact LockRun.nil _

end UsbRelay
